import Mathlib

/-!
Shallow embedding of the resumable chunked upload subsystem of
`src/main/app/service/impl/file_service_impl.py`, together with the mapper
(`src/main/app/mapper/file_mapper.py`) and the hash utilities
(`src/main/app/utils/file_util.py`).

Modelling conventions:
- Raw file bytes are `List Nat`.
- SHA-256 (`hashlib.sha256(...).hexdigest()`) is an external library call; every
  operation is parameterized by an abstract digest function `h : Bytes → String`.
  `calculate_file_sha256` reads the file in 8192-byte blocks and feeds them to the
  same incremental SHA-256, so both utilities are the digest of the full content.
- The metadata directory (`METADATA_DIR`) is a list of directory entries; each
  entry records the filename stem, whether the filename ends in `.json`, and the
  result of loading and parsing the file (`none` when the file is unreadable,
  empty, not valid JSON, or lacks the fields the service reads).
- The temp chunk directory (`TEMP_DIR/<upload_id>/chunk_<n>`) is an association
  list keyed by `(upload_id, chunk number)`; the final namespace (`UPLOAD_DIR`)
  is keyed by storage name (the constant directory components are common to all
  keys and elided).
- The database is a list of `FileModel` rows. `one_or_none` mirrors sqlmodel:
  it raises (here `Except.error`) when more than one row matches.
- `HTTPException` and exceptions escaping to the framework are modelled as an
  `Except` error carrying the HTTP status code and a structured detail kind.
- Each operation returns its result together with the post-state, so state left
  behind by a failing call is observable.
-/

abbrev Bytes := List Nat

deriving instance DecidableEq for Except

/-- Upload-session metadata, as persisted in `METADATA_DIR/<upload_id>.json`
by `init_chunked_upload` and read back by `load_upload_metadata`. -/
structure Metadata where
  upload_id : String
  original_name : String
  total_chunks : Int
  uploaded_chunks : List Int
  file_size : Int
  file_hash : String
  file_extension : Option String
  user_id : Int
  conversation_id : Int
  status : String
  created_at : String
  updated_at : String
  final_path : Option String
deriving DecidableEq

/-- A row of the `files` table (`src/main/app/model/file_model.py`). -/
structure FileModel where
  id : Int
  file_uuid : String
  storage_driver : String
  storage_path : String
  original_name : String
  storage_name : String
  file_hash : String
  file_size : Int
  file_extension : Option String
  user_id : Int
  conversation_id : Int
  state : Int
  deleted_at : Option String
deriving DecidableEq

/-- One entry of the metadata directory: the filename stem, whether the filename
ends in `.json`, and the parse result of its content (`none` when the file
cannot be loaded or parsed into the fields the service uses). -/
structure DirEntry where
  stem : String
  isJson : Bool
  content : Option Metadata
deriving DecidableEq

/-- Whole system state touched by the chunked-upload service. -/
structure St where
  metadir : List DirEntry
  tempChunks : List ((String × Nat) × Bytes)
  uploads : List (String × Bytes)
  db : List FileModel
deriving DecidableEq

/-- Structured detail of an HTTP-level failure. -/
inductive ErrKind where
  | uploadIdNotFound
  | badState (status : String)
  | badChunkNumber
  | chunkHashMismatch (expected actual : String)
  | missingChunksKind (missing : List Int)
  | mergeHashMismatch
  | readFailure
  | jsonFailure
  | dbFailure
  | noneTypeId
deriving DecidableEq

/-- An `HTTPException` (or an exception escaping to the framework): HTTP status
code plus structured detail. -/
structure HttpErr where
  status_code : Int
  kind : ErrKind
deriving DecidableEq

structure InitChunkedUploadRequest where
  original_name : String
  total_chunks : Int
  file_size : Int
  file_hash : String
  file_extension : Option String
  user_id : Int
  conversation_id : Int
deriving DecidableEq

structure InitChunkedUploadResponse where
  status : String
  file_id : Option Int
  upload_id : Option String
  message : String
deriving DecidableEq

structure ChunkUploadResponse where
  chunk_number : Int
  status : String
  message : String
deriving DecidableEq

structure MergeChunksResponse where
  status : String
  file_id : Int
  file_uuid : String
  message : String
deriving DecidableEq

structure CancelUploadResponse where
  status : String
  message : String
deriving DecidableEq

/-- The view returned by `get_upload_status`/`list_uploads`. -/
structure ChunkedUploadStatus where
  upload_id : String
  original_name : String
  total_chunks : Int
  uploaded_chunks : List Int
  file_size : Int
  file_hash : String
  status : String
  created_at : String
  updated_at : String
deriving DecidableEq

/-- Look up the metadata file `<uid>.json` in the directory. -/
def findMeta : List DirEntry → String → Option (Option Metadata)
  | [], _ => none
  | e :: rest, uid =>
    if e.isJson && e.stem == uid then some e.content else findMeta rest uid

/-- Overwrite (or create) the metadata file `<uid>.json`. -/
def setMeta : List DirEntry → String → Metadata → List DirEntry
  | [], uid, m => [⟨uid, true, some m⟩]
  | e :: rest, uid, m =>
    if e.isJson && e.stem == uid then ⟨uid, true, some m⟩ :: rest
    else e :: setMeta rest uid m

/-- Errors of `load_upload_metadata`: missing file (`HTTPException 404`) or a
JSON decoding error (propagates as a 500). -/
inductive LoadErr where
  | notFound
  | parseFail
deriving DecidableEq

/-- `load_upload_metadata`: 404 when the metadata file does not exist, a raised
decoding error when it cannot be parsed, its parsed content otherwise. -/
def load_upload_metadata (st : St) (uid : String) : Except LoadErr Metadata :=
  match findMeta st.metadir uid with
  | none => .error .notFound
  | some none => .error .parseFail
  | some (some m) => .ok m

/-- How a `load_upload_metadata` failure surfaces over HTTP: the 404 is an
`HTTPException` re-raised as is; a decode error becomes a 500. -/
def loadErrToHttp : LoadErr → HttpErr
  | .notFound => ⟨404, .uploadIdNotFound⟩
  | .parseFail => ⟨500, .jsonFailure⟩

/-- `save_upload_metadata`: refreshes `updated_at` then writes the file. -/
def save_upload_metadata (now : String) (st : St) (uid : String) (m : Metadata) : St :=
  { st with metadir := setMeta st.metadir uid { m with updated_at := now } }

/-- Read the chunk file `TEMP_DIR/<uid>/chunk_<n>` if present. -/
def lookupChunk : List ((String × Nat) × Bytes) → String → Nat → Option Bytes
  | [], _, _ => none
  | (k, b) :: rest, uid, n =>
    if k.1 == uid && k.2 == n then some b else lookupChunk rest uid n

/-- Write the chunk file `TEMP_DIR/<uid>/chunk_<n>` (overwriting). -/
def setChunk : List ((String × Nat) × Bytes) → String → Nat → Bytes →
    List ((String × Nat) × Bytes)
  | [], uid, n, b => [((uid, n), b)]
  | (k, b0) :: rest, uid, n, b =>
    if k.1 == uid && k.2 == n then ((uid, n), b) :: rest
    else (k, b0) :: setChunk rest uid n b

/-- `shutil.rmtree(TEMP_DIR/<uid>)`: drop every chunk of the session. -/
def eraseSessionChunks (l : List ((String × Nat) × Bytes)) (uid : String) :
    List ((String × Nat) × Bytes) :=
  l.filter (fun e => !(e.1.1 == uid))

/-- Read a final object by storage name. -/
def lookupUpload : List (String × Bytes) → String → Option Bytes
  | [], _ => none
  | (k, b) :: rest, name => if k == name then some b else lookupUpload rest name

/-- `open(final_path, 'wb')` followed by writes: create or truncate. -/
def setUpload : List (String × Bytes) → String → Bytes → List (String × Bytes)
  | [], name, b => [(name, b)]
  | (k, b0) :: rest, name, b =>
    if k == name then (name, b) :: rest else (k, b0) :: setUpload rest name b

/-- `os.remove(final_path)`. -/
def eraseUpload (l : List (String × Bytes)) (name : String) : List (String × Bytes) :=
  l.filter (fun e => !(e.1 == name))

/-- sqlmodel `Result.one_or_none`: `none` for no row, the row when unique,
an exception (`MultipleResultsFound`) otherwise. -/
def one_or_none {α : Type} : List α → Except Unit (Option α)
  | [] => .ok none
  | [r] => .ok (some r)
  | _ :: _ :: _ => .error ()

/-- `FileMapper.find_by_hash`: rows with the given hash and `state == 1`. -/
def find_by_hash (db : List FileModel) (fh : String) : Except Unit (Option FileModel) :=
  one_or_none (db.filter (fun f => f.file_hash == fh && f.state == 1))

/-- `FileMapper.find_by_uuid`. Note the filter in the source is
`deleted_at.is_not(None)`: only rows whose `deleted_at` is set match. -/
def find_by_uuid (db : List FileModel) (uid : String) : Except Unit (Option FileModel) :=
  one_or_none (db.filter (fun f => f.file_uuid == uid && f.deleted_at.isSome))

/-- `mapper.update(data=record)`: replace the row with the same primary key. -/
def updateById (db : List FileModel) (r : FileModel) : List FileModel :=
  db.map (fun x => if x.id == r.id then r else x)

/-- `check_file_exists_by_hash`: dedup lookup, requiring `state == 1`. -/
def check_file_exists_by_hash (db : List FileModel) (fh : String) :
    Except Unit (Option FileModel) :=
  match find_by_hash db fh with
  | .error e => .error e
  | .ok none => .ok none
  | .ok (some f) => .ok (if f.state == 1 then some f else none)

/-- `init_chunked_upload`. The generated `uuid4` and the snowflake row id are
external nondeterminism, passed in as `newUploadId` and `newId`. -/
def init_chunked_upload (newUploadId : String) (newId : Int) (now : String)
    (st : St) (req : InitChunkedUploadRequest) :
    Except HttpErr InitChunkedUploadResponse × St :=
  match check_file_exists_by_hash st.db req.file_hash with
  | .error _ => (.error ⟨500, .dbFailure⟩, st)
  | .ok (some f) =>
    (.ok ⟨"instant", some f.id, none, "File already exists, instant upload successful"⟩, st)
  | .ok none =>
    let m : Metadata :=
      { upload_id := newUploadId
        original_name := req.original_name
        total_chunks := req.total_chunks
        uploaded_chunks := []
        file_size := req.file_size
        file_hash := req.file_hash
        file_extension := req.file_extension
        user_id := req.user_id
        conversation_id := req.conversation_id
        status := "uploading"
        created_at := now
        updated_at := now
        final_path := none }
    let st1 := save_upload_metadata now st newUploadId m
    let fm : FileModel :=
      { id := newId
        file_uuid := newUploadId
        storage_driver := "local"
        storage_path := "temp_uploads/" ++ newUploadId
        original_name := req.original_name
        storage_name := newUploadId ++ "_" ++ req.original_name
        file_hash := req.file_hash
        file_size := req.file_size
        file_extension := req.file_extension
        user_id := req.user_id
        conversation_id := req.conversation_id
        state := 0
        deleted_at := none }
    let st2 := { st1 with db := st1.db ++ [fm] }
    (.ok ⟨"success", none, some newUploadId, "Upload initialized successfully"⟩, st2)

/-- `upload_chunk`: status gate, range gate, idempotence gate, digest gate,
then chunk write followed by membership update (append, then sort). -/
def upload_chunk (h : Bytes → String) (now : String) (st : St) (upload_id : String)
    (chunk_number : Int) (chunk_hash : String) (content : Bytes) :
    Except HttpErr ChunkUploadResponse × St :=
  match load_upload_metadata st upload_id with
  | .error e => (.error (loadErrToHttp e), st)
  | .ok m =>
    if m.status ≠ "uploading" ∧ m.status ≠ "paused" then
      (.error ⟨400, .badState m.status⟩, st)
    else if chunk_number < 0 ∨ m.total_chunks ≤ chunk_number then
      (.error ⟨400, .badChunkNumber⟩, st)
    else if chunk_number ∈ m.uploaded_chunks then
      (.ok ⟨chunk_number, "exists", "Chunk already uploaded"⟩, st)
    else if h content ≠ chunk_hash then
      (.error ⟨400, .chunkHashMismatch chunk_hash (h content)⟩, st)
    else
      let st1 :=
        { st with tempChunks := setChunk st.tempChunks upload_id chunk_number.toNat content }
      let m1 :=
        { m with uploaded_chunks :=
            List.insertionSort (· ≤ ·) (m.uploaded_chunks ++ [chunk_number]) }
      let st2 := save_upload_metadata now st1 upload_id m1
      (.ok ⟨chunk_number, "success", "Chunk uploaded successfully"⟩, st2)

/-- `sorted(set(range(total_chunks)) - set(uploaded_chunks))`. -/
def missingOf (m : Metadata) : List Int :=
  ((List.range m.total_chunks.toNat).map (fun n : Nat => (n : Int))).filter
    (fun i => decide (i ∉ m.uploaded_chunks))

/-- The merge loop of `merge_chunks`: read `chunk_<n>` for each `n` in order,
appending to the output file; a missing chunk stops the loop (`IOError`),
leaving the bytes already written. Returns the written bytes and whether the
loop finished. -/
def collectChunks (chunks : List ((String × Nat) × Bytes)) (uid : String) :
    List Nat → Bytes × Bool
  | [] => ([], true)
  | n :: rest =>
    match lookupChunk chunks uid n with
    | none => ([], false)
    | some b =>
      let r := collectChunks chunks uid rest
      (b ++ r.1, r.2)

/-- `merge_chunks`: completeness gate, ordered concatenation into the final
namespace, whole-file digest verification, database update via `find_by_uuid`,
temp cleanup, metadata update, response. -/
def merge_chunks (h : Bytes → String) (now : String) (st : St) (upload_id : String) :
    Except HttpErr MergeChunksResponse × St :=
  match load_upload_metadata st upload_id with
  | .error e => (.error (loadErrToHttp e), st)
  | .ok m =>
    if (m.uploaded_chunks.length : Int) ≠ m.total_chunks then
      (.error ⟨400, .missingChunksKind (missingOf m)⟩, st)
    else
      let storage_name := upload_id ++ "_" ++ m.original_name
      let res := collectChunks st.tempChunks upload_id (List.range m.total_chunks.toNat)
      let st1 := { st with uploads := setUpload st.uploads storage_name res.1 }
      if res.2 = false then
        (.error ⟨500, .readFailure⟩, st1)
      else if h res.1 ≠ m.file_hash then
        (.error ⟨500, .mergeHashMismatch⟩,
         { st1 with uploads := eraseUpload st1.uploads storage_name })
      else
        match find_by_uuid st1.db upload_id with
        | .error _ => (.error ⟨500, .dbFailure⟩, st1)
        | .ok found =>
          let st2 :=
            match found with
            | some r =>
              let r1 : FileModel :=
                { r with storage_path := "uploads/" ++ storage_name, state := 1 }
              { st1 with db := updateById st1.db r1 }
            | none => st1
          let st3 := { st2 with tempChunks := eraseSessionChunks st2.tempChunks upload_id }
          let m1 := { m with status := "completed", final_path := some ("uploads/" ++ storage_name) }
          let st4 := save_upload_metadata now st3 upload_id m1
          match found with
          | some r => (.ok ⟨"success", r.id, upload_id, "File merged successfully"⟩, st4)
          | none => (.error ⟨500, .noneTypeId⟩, st4)

/-- `cancel_upload`: remove the session temp directory, set the status to
cancelled, soft-delete the database row found by `find_by_uuid`. -/
def cancel_upload (now : String) (st : St) (upload_id : String) :
    Except HttpErr CancelUploadResponse × St :=
  match load_upload_metadata st upload_id with
  | .error e => (.error (loadErrToHttp e), st)
  | .ok m =>
    let st1 := { st with tempChunks := eraseSessionChunks st.tempChunks upload_id }
    let m1 := { m with status := "cancelled" }
    let st2 := save_upload_metadata now st1 upload_id m1
    match find_by_uuid st2.db upload_id with
    | .error _ => (.error ⟨500, .dbFailure⟩, st2)
    | .ok none => (.ok ⟨"success", "Upload cancelled and temporary files removed"⟩, st2)
    | .ok (some r) =>
      let st3 := { st2 with db := updateById st2.db { r with deleted_at := some now } }
      (.ok ⟨"success", "Upload cancelled and temporary files removed"⟩, st3)

/-- Projection of loaded metadata to the listing/status view. -/
def viewOf (m : Metadata) : ChunkedUploadStatus :=
  { upload_id := m.upload_id
    original_name := m.original_name
    total_chunks := m.total_chunks
    uploaded_chunks := m.uploaded_chunks
    file_size := m.file_size
    file_hash := m.file_hash
    status := m.status
    created_at := m.created_at
    updated_at := m.updated_at }

/-- `status is None or metadata['status'] == status`. -/
def statusMatches (filt : Option String) (s : String) : Bool :=
  match filt with
  | none => true
  | some t => s == t

/-- `list_uploads`: scan the metadata directory; for each `.json` file try to
load it, skipping (bare `except`) every entry that cannot be loaded or parsed,
and keep the ones passing the optional status filter. -/
def list_uploads (st : St) (filt : Option String) : List ChunkedUploadStatus :=
  st.metadir.foldl
    (fun acc e =>
      if e.isJson then
        match load_upload_metadata st e.stem with
        | .error _ => acc
        | .ok m => if statusMatches filt m.status then acc ++ [viewOf m] else acc
      else acc) []

/-- A concrete digest function used to instantiate the abstract hasher in
closed evaluations. -/
def demoHash : Bytes → String := fun b =>
  if b = [65, 65, 65, 65, 65] then "hA"
  else if b = [66, 66, 66, 66, 66] then "hB"
  else if b = [67, 67, 67, 67, 67] then "hC"
  else if b = [65, 65, 65, 65, 65, 66, 66, 66, 66, 66, 67, 67, 67, 67, 67] then "hABC"
  else if b = [1, 2, 3] then "h123"
  else "hX"

/-!
Helper lemmas about the store primitives.
-/

theorem findMeta_setMeta_self (dir : List DirEntry) (uid : String) (m : Metadata) :
    findMeta (setMeta dir uid m) uid = some (some m) := by
  induction dir with
  | nil => simp [setMeta, findMeta]
  | cons e rest ih =>
    by_cases hc : e.isJson && e.stem == uid
    · simp [setMeta, findMeta, hc]
    · simp [setMeta, findMeta, hc, ih]

theorem load_save (now : String) (st : St) (uid : String) (m : Metadata) :
    load_upload_metadata (save_upload_metadata now st uid m) uid =
      .ok { m with updated_at := now } := by
  simp [load_upload_metadata, save_upload_metadata, findMeta_setMeta_self]

theorem lookupChunk_eraseSession (l : List ((String × Nat) × Bytes)) (uid : String) (n : Nat) :
    lookupChunk (eraseSessionChunks l uid) uid n = none := by
  induction l with
  | nil => rfl
  | cons e rest ih =>
    obtain ⟨⟨u, k⟩, b⟩ := e
    simp only [eraseSessionChunks, List.filter] at *
    by_cases hu : u == uid
    · simp [hu, ih]
    · simp [hu, lookupChunk, ih]

theorem lookupUpload_erase (l : List (String × Bytes)) (name : String) :
    lookupUpload (eraseUpload l name) name = none := by
  induction l with
  | nil => rfl
  | cons e rest ih =>
    obtain ⟨k, b⟩ := e
    simp only [eraseUpload, List.filter] at *
    by_cases hk : k == name
    · simp [hk, ih]
    · simp [hk, lookupUpload, ih]

theorem lookupUpload_set_self (l : List (String × Bytes)) (name : String) (b : Bytes) :
    lookupUpload (setUpload l name b) name = some b := by
  induction l with
  | nil => simp [setUpload, lookupUpload]
  | cons e rest ih =>
    obtain ⟨k, b0⟩ := e
    by_cases hk : k == name
    · simp [setUpload, hk, lookupUpload]
    · simp [setUpload, hk, lookupUpload, ih]

theorem collectChunks_all (chunks : List ((String × Nat) × Bytes)) (uid : String)
    (f : Nat → Bytes) (l : List Nat)
    (hl : ∀ n ∈ l, lookupChunk chunks uid n = some (f n)) :
    collectChunks chunks uid l = ((l.map f).flatten, true) := by
  induction l with
  | nil => simp [collectChunks]
  | cons n rest ih =>
    have hn := hl n (by simp)
    have hrest : ∀ k ∈ rest, lookupChunk chunks uid k = some (f k) := by
      intro k hk; exact hl k (by simp [hk])
    simp [collectChunks, hn, ih hrest]

theorem mem_missingOf (m : Metadata) (j : Int) :
    j ∈ missingOf m ↔ 0 ≤ j ∧ j < m.total_chunks ∧ j ∉ m.uploaded_chunks := by
  simp only [missingOf, List.mem_filter, List.mem_map, List.mem_range,
    decide_eq_true_eq]
  constructor
  · rintro ⟨⟨k, hk, rfl⟩, hni⟩
    exact ⟨by omega, by omega, hni⟩
  · rintro ⟨h0, hlt, hni⟩
    exact ⟨⟨j.toNat, by omega, by omega⟩, hni⟩

/-- The `AlreadyPresent` branch of `upload_chunk`: a chunk index already in
`uploaded_chunks` short-circuits with status `exists` and leaves the whole
state unchanged, before the request bytes are ever read. -/
theorem upload_chunk_exists_branch (h : Bytes → String) (now : String) (st : St)
    (uid : String) (m : Metadata) (idx : Int) (chash : String) (content : Bytes)
    (hload : load_upload_metadata st uid = .ok m)
    (hstatus : m.status = "uploading" ∨ m.status = "paused")
    (h0 : 0 ≤ idx) (hlt : idx < m.total_chunks)
    (hmem : idx ∈ m.uploaded_chunks) :
    upload_chunk h now st uid idx chash content =
      (.ok ⟨idx, "exists", "Chunk already uploaded"⟩, st) := by
  simp only [upload_chunk, hload]
  rw [if_neg, if_neg, if_pos hmem]
  · push_neg
    exact ⟨h0, hlt⟩
  · rcases hstatus with h1 | h1 <;> simp [h1]

/-- The success branch of `upload_chunk`: the chunk bytes are stored and the
index is appended to the sorted membership list. -/
theorem upload_chunk_success_branch (h : Bytes → String) (now : String) (st : St)
    (uid : String) (m : Metadata) (idx : Int) (chash : String) (content : Bytes)
    (hload : load_upload_metadata st uid = .ok m)
    (hstatus : m.status = "uploading" ∨ m.status = "paused")
    (h0 : 0 ≤ idx) (hlt : idx < m.total_chunks)
    (hnot : idx ∉ m.uploaded_chunks)
    (hhash : h content = chash) :
    upload_chunk h now st uid idx chash content =
      (.ok ⟨idx, "success", "Chunk uploaded successfully"⟩,
       save_upload_metadata now
         { st with tempChunks := setChunk st.tempChunks uid idx.toNat content } uid
         { m with uploaded_chunks :=
             List.insertionSort (· ≤ ·) (m.uploaded_chunks ++ [idx]) }) := by
  simp only [upload_chunk, hload]
  rw [if_neg, if_neg, if_neg hnot, if_neg (by simp [hhash])]
  · push_neg
    exact ⟨h0, hlt⟩
  · rcases hstatus with h1 | h1 <;> simp [h1]

/-- The success path of `merge_chunks`, for a database row that `find_by_uuid`
can see: the final object is the concatenation of the chunks in ascending
index order. -/
theorem merge_chunks_ok (h : Bytes → String) (now : String) (st : St)
    (uid : String) (m : Metadata) (f : Nat → Bytes) (r : FileModel)
    (hload : load_upload_metadata st uid = .ok m)
    (hlen : (m.uploaded_chunks.length : Int) = m.total_chunks)
    (hchunks : ∀ n ∈ List.range m.total_chunks.toNat,
        lookupChunk st.tempChunks uid n = some (f n))
    (hmatch : h (((List.range m.total_chunks.toNat).map f).flatten) = m.file_hash)
    (hfind : find_by_uuid st.db uid = .ok (some r)) :
    ∃ st2 : St,
      merge_chunks h now st uid =
        (.ok ⟨"success", r.id, uid, "File merged successfully"⟩, st2)
      ∧ lookupUpload st2.uploads (uid ++ "_" ++ m.original_name) =
          some (((List.range m.total_chunks.toNat).map f).flatten) := by
  simp only [merge_chunks, hload]
  rw [if_neg (by simp [hlen])]
  rw [collectChunks_all st.tempChunks uid f _ hchunks]
  simp only [hfind, lookupUpload_set_self]
  rw [if_neg (by simp)]
  rw [if_neg (by simp [hmatch])]
  exact ⟨_, rfl, lookupUpload_set_self _ _ _⟩

theorem findMeta_of_nodup (l : List DirEntry)
    (hnd : ((l.filter (fun e => e.isJson)).map (fun e => e.stem)).Nodup)
    (e : DirEntry) (he : e ∈ l) (hj : e.isJson = true) :
    findMeta l e.stem = some e.content := by
  induction l with
  | nil => cases he
  | cons a rest ih =>
    rcases List.mem_cons.mp he with rfl | hrest
    · simp [findMeta, hj]
    · by_cases hc : (a.isJson && a.stem == e.stem) = true
      · exfalso
        have hc2 : a.isJson = true ∧ a.stem = e.stem := by
          simpa using hc
        have hfil : (a :: rest).filter (fun e => e.isJson) =
            a :: rest.filter (fun e => e.isJson) := by
          simp [List.filter, hc2.1]
        rw [hfil] at hnd
        simp only [List.map_cons, List.nodup_cons] at hnd
        apply hnd.1
        rw [hc2.2]
        exact List.mem_map_of_mem (fun e => e.stem)
          (List.mem_filter.mpr ⟨hrest, hj⟩)
      · have hnd2 : ((rest.filter (fun e => e.isJson)).map (fun e => e.stem)).Nodup := by
          by_cases haj : a.isJson = true
          · have hfil : (a :: rest).filter (fun e => e.isJson) =
                a :: rest.filter (fun e => e.isJson) := by
              simp [List.filter, haj]
            rw [hfil] at hnd
            simp only [List.map_cons, List.nodup_cons] at hnd
            exact hnd.2
          · have hfil : (a :: rest).filter (fun e => e.isJson) =
                rest.filter (fun e => e.isJson) := by
              simp [List.filter, haj]
            rw [hfil] at hnd
            exact hnd
        simp only [findMeta, hc]
        exact ih hnd2 hrest

theorem list_uploads_fold (st : St) (filt : Option String) (l : List DirEntry)
    (acc : List ChunkedUploadStatus)
    (hl : ∀ e ∈ l, e.isJson = true → findMeta st.metadir e.stem = some e.content) :
    l.foldl
      (fun acc e =>
        if e.isJson then
          match load_upload_metadata st e.stem with
          | .error _ => acc
          | .ok m => if statusMatches filt m.status then acc ++ [viewOf m] else acc
        else acc) acc =
    acc ++ l.filterMap
      (fun e =>
        if e.isJson = true then
          match e.content with
          | some m => if statusMatches filt m.status then some (viewOf m) else none
          | none => none
        else none) := by
  induction l generalizing acc with
  | nil => simp
  | cons a rest ih =>
    have hrest : ∀ e ∈ rest, e.isJson = true → findMeta st.metadir e.stem = some e.content :=
      fun e he hj => hl e (List.mem_cons_of_mem a he) hj
    by_cases haj : a.isJson = true
    · have hfm := hl a (List.mem_cons_self a rest) haj
      cases hac : a.content with
      | none =>
        have hld : load_upload_metadata st a.stem = .error .parseFail := by
          simp [load_upload_metadata, hfm, hac]
        simp only [List.foldl_cons, List.filterMap_cons, haj, hld, hac, if_true]
        exact ih acc hrest
      | some mm =>
        have hld : load_upload_metadata st a.stem = .ok mm := by
          simp [load_upload_metadata, hfm, hac]
        cases hsm : statusMatches filt mm.status with
        | true =>
          simp only [List.foldl_cons, List.filterMap_cons, haj, hld, hsm, hac, if_true]
          rw [ih (acc ++ [viewOf mm]) hrest]
          simp
        | false =>
          simp only [List.foldl_cons, List.filterMap_cons, haj, hld, hsm, hac, if_true]
          simp only [Bool.false_eq_true, if_false]
          exact ih acc hrest
    · have haj2 : a.isJson = false := Bool.eq_false_iff.mpr haj
      simp only [List.foldl_cons, List.filterMap_cons, haj2]
      simp only [Bool.false_eq_true, if_false]
      exact ih acc hrest

/-!
Concrete inputs used for closed evaluations of the operations.
-/

/-- A session metadata record with fixed descriptive fields. -/
def demoMeta (uid : String) (status : String) (total : Int) (uploaded : List Int)
    (fhash : String) : Metadata :=
  { upload_id := uid
    original_name := "f.bin"
    total_chunks := total
    uploaded_chunks := uploaded
    file_size := 15
    file_hash := fhash
    file_extension := some "bin"
    user_id := 7
    conversation_id := 9
    status := status
    created_at := "t0"
    updated_at := "t0"
    final_path := none }

/-- The empty initial state: no metadata files, no chunks, no finals, no rows. -/
def emptySt : St := ⟨[], [], [], []⟩

/-- The three-chunk upload request of the concrete scenario in the spec:
`totalSize = 15`, three chunks of five bytes. -/
def chainReq : InitChunkedUploadRequest := ⟨"f.bin", 3, 15, "hABC", some "bin", 7, 9⟩

/-- Normal flow, step 1: initialize a fresh session `u1`. -/
def chainInit := init_chunked_upload "u1" 101 "t0" emptySt chainReq

/-- Steps 2 to 4: upload the three chunks out of order (2, then 0, then 1),
each with its correct digest under `demoHash`. -/
def chainUp2 := upload_chunk demoHash "t1" chainInit.2 "u1" 2 "hC" [67, 67, 67, 67, 67]

def chainUp0 := upload_chunk demoHash "t2" chainUp2.2 "u1" 0 "hA" [65, 65, 65, 65, 65]

def chainUp1 := upload_chunk demoHash "t3" chainUp0.2 "u1" 1 "hB" [66, 66, 66, 66, 66]

/-- Step 5: complete the session. -/
def chainMerge := merge_chunks demoHash "t4" chainUp1.2 "u1"

/-- Step 6: initialize a second upload with the same `file_hash`. -/
def chainInit2 := init_chunked_upload "u2" 102 "t5" chainMerge.2 chainReq

/-- Claim C1 (code_bug): in the concrete spec scenario (three 5-byte chunks
uploaded in order 2, 0, 1 with correct digests, whole-file digest `hABC`
declared at init), `merge_chunks` does read the chunks strictly in ascending
index order and writes the byte-identical 15-byte object
`AAAAABBBBBCCCCC` into the final namespace, and the recomputed digest matches
the declared one (the merge proceeds past the digest check and marks the
metadata `completed`) — but the call then returns HTTP 500 instead of
`Completed(finalFileId)`: `find_by_uuid` filters `deleted_at IS NOT NULL`, so
it cannot see the live row created at init, `file_record` is `None`, and
`file_record.id` raises. -/
theorem c1_merge_ordered_but_returns_500 :
    chainInit.1 = .ok ⟨"success", none, some "u1", "Upload initialized successfully"⟩
    ∧ chainUp2.1 = .ok ⟨2, "success", "Chunk uploaded successfully"⟩
    ∧ chainUp0.1 = .ok ⟨0, "success", "Chunk uploaded successfully"⟩
    ∧ chainUp1.1 = .ok ⟨1, "success", "Chunk uploaded successfully"⟩
    ∧ lookupUpload chainMerge.2.uploads "u1_f.bin" =
        some [65, 65, 65, 65, 65, 66, 66, 66, 66, 66, 67, 67, 67, 67, 67]
    ∧ demoHash [65, 65, 65, 65, 65, 66, 66, 66, 66, 66, 67, 67, 67, 67, 67] = "hABC"
    ∧ (load_upload_metadata chainMerge.2 "u1").map (fun m => m.status) = .ok "completed"
    ∧ chainMerge.1 = .error ⟨500, .noneTypeId⟩ := by
  decide

/-- Claim C2 (code_bug): after the first upload of digest `hABC` has gone
through `merge_chunks` (its metadata says `completed` and the final object
exists), a second `init_chunked_upload` with the same `file_hash` does not
return the instant-upload response: the dedup lookup requires a row with
`state == 1`, but `merge_chunks` never reached its `state = 1` update for the
live row (`find_by_uuid` only matches soft-deleted rows), so the row is still
`state = 0` and a brand-new session `u2` (new metadata file) is allocated. -/
theorem c2_second_init_not_instant :
    (load_upload_metadata chainMerge.2 "u1").map (fun m => m.status) = .ok "completed"
    ∧ (chainMerge.2.db.map (fun r => (r.file_hash, r.state))) = [("hABC", 0)]
    ∧ chainInit2.1 = .ok ⟨"success", none, some "u2", "Upload initialized successfully"⟩
    ∧ findMeta chainInit2.2.metadir "u2" ≠ none := by
  decide

/-- Session state used for the integrity-mismatch evaluations: both chunks
present but the declared whole-file digest does not match the content. -/
def c3St : St :=
  ⟨[⟨"w3", true, some (demoMeta "w3" "uploading" 2 [0, 1] "WRONG")⟩],
   [(("w3", 0), [1, 2, 3]), (("w3", 1), [4])], [], []⟩

/-- Claim C3, counterexample: on a complete session whose declared digest does
not match the merged content, `merge_chunks` returns the integrity error and
deletes the final object, but the session metadata is entirely unchanged —
its status is still `uploading`, not a `Failed` state (the code never writes
any failed status; no metadata write happens on this path at all). -/
theorem c3_counterexample_no_failed_transition :
    (merge_chunks demoHash "t9" c3St "w3").1 = .error ⟨500, .mergeHashMismatch⟩
    ∧ lookupUpload (merge_chunks demoHash "t9" c3St "w3").2.uploads "w3_f.bin" = none
    ∧ (merge_chunks demoHash "t9" c3St "w3").2.metadir = c3St.metadir
    ∧ (load_upload_metadata (merge_chunks demoHash "t9" c3St "w3").2 "w3").map
        (fun m => m.status) = .ok "uploading" := by
  decide

/-- Claim C3 (corrected): for every session whose chunk set is complete, if the
digest recomputed over the merged object differs from the declared
`file_hash`, `merge_chunks` deletes the partially-written final object and
returns the integrity error (HTTP 500) — but it does not transition the
session to `Failed`: the metadata directory (hence the status), the stored
chunks and the database are all left unchanged. -/
theorem c3_integrity_mismatch_deletes_object_only (h : Bytes → String) (now : String)
    (st : St) (uid : String) (m : Metadata) (f : Nat → Bytes)
    (hload : load_upload_metadata st uid = .ok m)
    (hlen : (m.uploaded_chunks.length : Int) = m.total_chunks)
    (hchunks : ∀ n ∈ List.range m.total_chunks.toNat,
        lookupChunk st.tempChunks uid n = some (f n))
    (hbad : h (((List.range m.total_chunks.toNat).map f).flatten) ≠ m.file_hash) :
    ∃ st2 : St,
      merge_chunks h now st uid = (.error ⟨500, .mergeHashMismatch⟩, st2)
      ∧ lookupUpload st2.uploads (uid ++ "_" ++ m.original_name) = none
      ∧ st2.metadir = st.metadir
      ∧ st2.tempChunks = st.tempChunks
      ∧ st2.db = st.db := by
  simp only [merge_chunks, hload]
  rw [if_neg (by simp [hlen])]
  rw [collectChunks_all st.tempChunks uid f _ hchunks]
  simp only []
  rw [if_neg (by simp)]
  rw [if_pos (by simpa using hbad)]
  exact ⟨_, rfl, lookupUpload_erase _ _, rfl, rfl, rfl⟩

theorem c3_integrity_mismatch_witness :
    ∃ st2 : St,
      merge_chunks demoHash "t9" c3St "w3" = (.error ⟨500, .mergeHashMismatch⟩, st2)
      ∧ lookupUpload st2.uploads "w3_f.bin" = none
      ∧ st2.metadir = c3St.metadir
      ∧ st2.tempChunks = c3St.tempChunks
      ∧ st2.db = c3St.db := by
  have h := c3_integrity_mismatch_deletes_object_only demoHash "t9" c3St "w3"
    (demoMeta "w3" "uploading" 2 [0, 1] "WRONG")
    (fun n => if n = 0 then [1, 2, 3] else [4])
    (by decide) (by decide) (by decide) (by decide)
  simpa using h

/-- Session state for evaluating the absent status gate of `merge_chunks`: a
cancelled session with its full chunk set still on disk, a matching digest,
and a soft-deleted database row (the only kind `find_by_uuid` can see). -/
def c4St : St :=
  ⟨[⟨"w4", true, some (demoMeta "w4" "cancelled" 1 [0] "h123")⟩],
   [(("w4", 0), [1, 2, 3])], [],
   [⟨201, "w4", "local", "p", "f.bin", "w4_f.bin", "h123", 3, none, 7, 9, 0, some "d"⟩]⟩

/-- Claim C4, counterexample: on a session whose status is `cancelled` (hence
not `Uploading` and not `Paused`) with a complete chunk set, `merge_chunks`
does not fail with an invalid-state error: it performs the merge, returns
success and deletes the session chunks. -/
theorem c4_counterexample_merge_on_cancelled :
    (load_upload_metadata c4St "w4").map (fun m => m.status) = .ok "cancelled"
    ∧ (merge_chunks demoHash "t9" c4St "w4").1 =
        .ok ⟨"success", 201, "w4", "File merged successfully"⟩
    ∧ lookupUpload (merge_chunks demoHash "t9" c4St "w4").2.uploads "w4_f.bin" =
        some [1, 2, 3]
    ∧ (merge_chunks demoHash "t9" c4St "w4").2.tempChunks = [] := by
  decide

/-- Claim C4 (corrected): `merge_chunks` checks no session status at all. For
every existing session whose status is neither `uploading` nor `paused` but
whose chunk set is complete, the merge is performed exactly as for an active
session: the chunks are read in ascending index order, concatenated into the
final object, and (when the digest matches and the database row is visible to
`find_by_uuid`) the call returns success rather than an invalid-state error. -/
theorem c4_merge_has_no_status_gate (h : Bytes → String) (now : String) (st : St)
    (uid : String) (m : Metadata) (f : Nat → Bytes) (r : FileModel)
    (_hstatus : m.status ≠ "uploading" ∧ m.status ≠ "paused")
    (hload : load_upload_metadata st uid = .ok m)
    (hlen : (m.uploaded_chunks.length : Int) = m.total_chunks)
    (hchunks : ∀ n ∈ List.range m.total_chunks.toNat,
        lookupChunk st.tempChunks uid n = some (f n))
    (hmatch : h (((List.range m.total_chunks.toNat).map f).flatten) = m.file_hash)
    (hfind : find_by_uuid st.db uid = .ok (some r)) :
    ∃ st2 : St,
      merge_chunks h now st uid =
        (.ok ⟨"success", r.id, uid, "File merged successfully"⟩, st2)
      ∧ lookupUpload st2.uploads (uid ++ "_" ++ m.original_name) =
          some (((List.range m.total_chunks.toNat).map f).flatten) :=
  merge_chunks_ok h now st uid m f r hload hlen hchunks hmatch hfind

theorem c4_merge_has_no_status_gate_witness :
    ∃ st2 : St,
      merge_chunks demoHash "t9" c4St "w4" =
        (.ok ⟨"success", 201, "w4", "File merged successfully"⟩, st2)
      ∧ lookupUpload st2.uploads "w4_f.bin" = some [1, 2, 3] := by
  have h := c4_merge_has_no_status_gate demoHash "t9" c4St "w4"
    (demoMeta "w4" "cancelled" 1 [0] "h123")
    (fun _ => [1, 2, 3])
    ⟨201, "w4", "local", "p", "f.bin", "w4_f.bin", "h123", 3, none, 7, 9, 0, some "d"⟩
    (by decide) (by decide) (by decide) (by decide) (by decide) (by decide)
  simpa using h

/-- Session state for the completeness gate: three declared chunks, only chunk
zero uploaded. -/
def c5St : St :=
  ⟨[⟨"w5", true, some (demoMeta "w5" "uploading" 3 [0] "hABC")⟩],
   [(("w5", 0), [65])], [], []⟩

/-- Claim C5 (confirmed): on a session with at least one chunk index in
`0..total_chunks-1` absent from `uploaded_chunks` (which is duplicate-free and
in range, as `upload_chunk` maintains), `merge_chunks` returns the
missing-chunks error whose payload is exactly the sorted complement
`{0..total_chunks-1} \ uploaded_chunks`, and the returned state is the input
state unchanged, so the call is safe to retry. -/
theorem c5_missing_chunks_exact_complement (h : Bytes → String) (now : String)
    (st : St) (uid : String) (m : Metadata)
    (hload : load_upload_metadata st uid = .ok m)
    (hnodup : m.uploaded_chunks.Nodup)
    (hrange : ∀ x ∈ m.uploaded_chunks, 0 ≤ x ∧ x < m.total_chunks)
    (i : Int) (hi0 : 0 ≤ i) (hilt : i < m.total_chunks)
    (hnotin : i ∉ m.uploaded_chunks) :
    merge_chunks h now st uid =
      (.error ⟨400, .missingChunksKind (missingOf m)⟩, st)
    ∧ i ∈ missingOf m
    ∧ (∀ j : Int, j ∈ missingOf m ↔ 0 ≤ j ∧ j < m.total_chunks ∧ j ∉ m.uploaded_chunks) := by
  have hTpos : 0 < m.total_chunks := lt_of_le_of_lt hi0 hilt
  set T := m.total_chunks.toNat with hT
  have htot : (T : Int) = m.total_chunks := Int.toNat_of_nonneg hTpos.le
  set rangeInts : List Int := (List.range T).map (fun n : Nat => (n : Int)) with hri
  have hmemr : ∀ x : Int, x ∈ rangeInts ↔ 0 ≤ x ∧ x < m.total_chunks := by
    intro x
    simp only [hri, List.mem_map, List.mem_range]
    constructor
    · rintro ⟨k, hk, rfl⟩
      exact ⟨by omega, by omega⟩
    · rintro ⟨h0, hlt⟩
      exact ⟨x.toNat, by omega, by omega⟩
  have hsubset : m.uploaded_chunks ⊆ rangeInts.erase i := by
    intro x hx
    have hxr : x ∈ rangeInts := (hmemr x).mpr (hrange x hx)
    have hxi : x ≠ i := by
      intro hxe
      exact hnotin (hxe ▸ hx)
    exact (List.mem_erase_of_ne hxi).mpr hxr
  have hirange : i ∈ rangeInts := (hmemr i).mpr ⟨hi0, hilt⟩
  have hle : m.uploaded_chunks.length ≤ (rangeInts.erase i).length :=
    (List.Nodup.subperm hnodup hsubset).length_le
  have herase : (rangeInts.erase i).length = T - 1 := by
    rw [List.length_erase_of_mem hirange]
    simp [hri]
  have hTge : 1 ≤ T := by omega
  have hlt2 : m.uploaded_chunks.length < T := by omega
  have hne : (m.uploaded_chunks.length : Int) ≠ m.total_chunks := by omega
  refine ⟨?_, (mem_missingOf m i).mpr ⟨hi0, hilt, hnotin⟩, fun j => mem_missingOf m j⟩
  simp only [merge_chunks, hload]
  rw [if_pos hne]

theorem c5_missing_chunks_witness :
    merge_chunks demoHash "t9" c5St "w5" =
      (.error ⟨400, .missingChunksKind (missingOf (demoMeta "w5" "uploading" 3 [0] "hABC"))⟩,
       c5St)
    ∧ (1 : Int) ∈ missingOf (demoMeta "w5" "uploading" 3 [0] "hABC")
    ∧ (∀ j : Int, j ∈ missingOf (demoMeta "w5" "uploading" 3 [0] "hABC") ↔
        0 ≤ j ∧ j < (demoMeta "w5" "uploading" 3 [0] "hABC").total_chunks
          ∧ j ∉ (demoMeta "w5" "uploading" 3 [0] "hABC").uploaded_chunks) :=
  c5_missing_chunks_exact_complement demoHash "t9" c5St "w5"
    (demoMeta "w5" "uploading" 3 [0] "hABC")
    (by decide) (by decide) (by decide) 1 (by decide) (by decide) (by decide)

/-- Session state for the idempotent-resend evaluation: a fresh three-chunk
session with nothing uploaded yet. -/
def c6St : St :=
  ⟨[⟨"w6", true, some (demoMeta "w6" "uploading" 3 [] "hABC")⟩], [], [], []⟩

/-- Claim C6 (confirmed): on a session in state `uploading` or `paused`, for a
valid not-yet-present chunk index with a correct digest, uploading the same
`(sessionId, chunkIndex, chunkDigest, bytes)` twice yields the success
response then the `exists` (already-present) response; the second call leaves
the state reached after the first call completely unchanged (so the chunk is
not re-written), and afterwards `uploaded_chunks` contains the index exactly
once. -/
theorem c6_idempotent_chunk_resend (h : Bytes → String) (now1 now2 : String)
    (st : St) (uid : String) (m : Metadata) (idx : Int) (chash : String)
    (content : Bytes)
    (hload : load_upload_metadata st uid = .ok m)
    (hstatus : m.status = "uploading" ∨ m.status = "paused")
    (h0 : 0 ≤ idx) (hlt : idx < m.total_chunks)
    (hnot : idx ∉ m.uploaded_chunks)
    (hhash : h content = chash) :
    ∃ st1 : St,
      upload_chunk h now1 st uid idx chash content =
        (.ok ⟨idx, "success", "Chunk uploaded successfully"⟩, st1)
      ∧ upload_chunk h now2 st1 uid idx chash content =
          (.ok ⟨idx, "exists", "Chunk already uploaded"⟩, st1)
      ∧ ∃ m1 : Metadata, load_upload_metadata st1 uid = .ok m1
          ∧ m1.uploaded_chunks.count idx = 1 := by
  refine ⟨_, upload_chunk_success_branch h now1 st uid m idx chash content
      hload hstatus h0 hlt hnot hhash, ?_, ?_⟩
  · have hload1 := load_save now1
      { st with tempChunks := setChunk st.tempChunks uid idx.toNat content } uid
      { m with uploaded_chunks := List.insertionSort (· ≤ ·) (m.uploaded_chunks ++ [idx]) }
    refine upload_chunk_exists_branch h now2 _ uid _ idx chash content hload1 ?_ h0 ?_ ?_
    · exact hstatus
    · exact hlt
    · simp [List.mem_insertionSort]
  · refine ⟨_, load_save now1 _ uid _, ?_⟩
    have hperm := List.perm_insertionSort (fun a b : Int => a ≤ b) (m.uploaded_chunks ++ [idx])
    simp only [hperm.count_eq, List.count_append]
    rw [List.count_eq_zero.mpr hnot]
    simp

theorem c6_idempotent_chunk_resend_witness :
    ∃ st1 : St,
      upload_chunk demoHash "s1" c6St "w6" 1 "hA" [65, 65, 65, 65, 65] =
        (.ok ⟨1, "success", "Chunk uploaded successfully"⟩, st1)
      ∧ upload_chunk demoHash "s2" st1 "w6" 1 "hA" [65, 65, 65, 65, 65] =
          (.ok ⟨1, "exists", "Chunk already uploaded"⟩, st1)
      ∧ ∃ m1 : Metadata, load_upload_metadata st1 "w6" = .ok m1
          ∧ m1.uploaded_chunks.count 1 = 1 :=
  c6_idempotent_chunk_resend demoHash "s1" "s2" c6St "w6"
    (demoMeta "w6" "uploading" 3 [] "hABC") 1 "hA" [65, 65, 65, 65, 65]
    (by decide) (by decide) (by decide) (by decide) (by decide) (by decide)

/-- Session state for the per-chunk digest gate: a fresh two-chunk session. -/
def c7St : St :=
  ⟨[⟨"w7", true, some (demoMeta "w7" "uploading" 2 [] "hABC")⟩], [], [], []⟩

/-- Claim C7 (confirmed): for a not-yet-present chunk index, when the digest
computed over the submitted bytes differs from the declared chunk digest,
`upload_chunk` fails with the digest-mismatch error (HTTP 400) and the
returned state is the input state unchanged: the bytes are not persisted to
the chunk store and the index is not added to `uploaded_chunks`. -/
theorem c7_chunk_digest_gate (h : Bytes → String) (now : String) (st : St)
    (uid : String) (m : Metadata) (idx : Int) (chash : String) (content : Bytes)
    (hload : load_upload_metadata st uid = .ok m)
    (hstatus : m.status = "uploading" ∨ m.status = "paused")
    (h0 : 0 ≤ idx) (hlt : idx < m.total_chunks)
    (hnot : idx ∉ m.uploaded_chunks)
    (hbad : h content ≠ chash) :
    upload_chunk h now st uid idx chash content =
      (.error ⟨400, .chunkHashMismatch chash (h content)⟩, st) := by
  simp only [upload_chunk, hload]
  rw [if_neg, if_neg, if_neg hnot, if_pos hbad]
  · push_neg
    exact ⟨h0, hlt⟩
  · rcases hstatus with h1 | h1 <;> simp [h1]

theorem c7_chunk_digest_gate_witness :
    upload_chunk demoHash "t9" c7St "w7" 0 "hA" [9] =
      (.error ⟨400, .chunkHashMismatch "hA" (demoHash [9])⟩, c7St) :=
  c7_chunk_digest_gate demoHash "t9" c7St "w7"
    (demoMeta "w7" "uploading" 2 [] "hABC") 0 "hA" [9]
    (by decide) (by decide) (by decide) (by decide) (by decide) (by decide)

/-- Session state for the cancel evaluations: a session that already reached
the `completed` status, with a chunk still stored. -/
def c8St : St :=
  ⟨[⟨"w8", true, some (demoMeta "w8" "completed" 1 [0] "hA")⟩],
   [(("w8", 0), [65, 65, 65, 65, 65])], [], []⟩

/-- Claim C8, counterexample: `cancel_upload` on a session whose status is
`completed` — a state from which the claim says cancel is not legal — does not
fail: it returns the success response (the code performs no status check). -/
theorem c8_counterexample_cancel_completed :
    (load_upload_metadata c8St "w8").map (fun m => m.status) = .ok "completed"
    ∧ (cancel_upload "t9" c8St "w8").1 =
        .ok ⟨"success", "Upload cancelled and temporary files removed"⟩ := by
  decide

/-- Claim C8 (corrected): `cancel_upload` succeeds from any loadable session
state — the code has no status gate, so cancel is not restricted to
`Uploading`/`Paused` (it is in particular idempotent on a `cancelled`
session). On success it deletes every stored chunk blob of the session
(without failing when blobs are absent), sets the session status to
`cancelled`, and afterwards every `uploadChunk` on that session fails with the
invalid-state error (HTTP 400), never succeeding. -/
theorem c8_cancel_no_status_gate (now : String) (st : St) (uid : String) (m : Metadata)
    (hload : load_upload_metadata st uid = .ok m)
    (hdb : ∃ o, find_by_uuid st.db uid = .ok o) :
    ∃ st2 : St,
      cancel_upload now st uid =
        (.ok ⟨"success", "Upload cancelled and temporary files removed"⟩, st2)
      ∧ (∀ n : Nat, lookupChunk st2.tempChunks uid n = none)
      ∧ (∃ m1 : Metadata, load_upload_metadata st2 uid = .ok m1 ∧ m1.status = "cancelled")
      ∧ ∀ (h2 : Bytes → String) (now2 : String) (idx : Int) (chash : String) (content : Bytes),
          upload_chunk h2 now2 st2 uid idx chash content =
            (.error ⟨400, .badState "cancelled"⟩, st2) := by
  obtain ⟨o, ho⟩ := hdb
  cases o with
  | none =>
    have hlW : load_upload_metadata
        (save_upload_metadata now
          { st with tempChunks := eraseSessionChunks st.tempChunks uid } uid
          { m with status := "cancelled" }) uid =
        .ok { m with status := "cancelled", updated_at := now } := by
      simp [load_upload_metadata, save_upload_metadata, findMeta_setMeta_self]
    refine ⟨save_upload_metadata now
        { st with tempChunks := eraseSessionChunks st.tempChunks uid } uid
        { m with status := "cancelled" }, ?_, ?_, ?_, ?_⟩
    · simp only [cancel_upload, hload, save_upload_metadata]
      rw [show find_by_uuid st.db uid = Except.ok none from ho]
    · intro n
      exact lookupChunk_eraseSession _ _ _
    · exact ⟨_, hlW, rfl⟩
    · intro h2 now2 idx chash content
      simp only [upload_chunk, hlW]
      rw [if_pos (by simp)]
  | some r =>
    have hlW : load_upload_metadata
        ({ save_upload_metadata now
            { st with tempChunks := eraseSessionChunks st.tempChunks uid } uid
            { m with status := "cancelled" } with
            db := updateById st.db { r with deleted_at := some now } }) uid =
        .ok { m with status := "cancelled", updated_at := now } := by
      simp [load_upload_metadata, save_upload_metadata, findMeta_setMeta_self]
    refine ⟨{ save_upload_metadata now
        { st with tempChunks := eraseSessionChunks st.tempChunks uid } uid
        { m with status := "cancelled" } with
        db := updateById st.db { r with deleted_at := some now } }, ?_, ?_, ?_, ?_⟩
    · simp only [cancel_upload, hload, save_upload_metadata]
      rw [show find_by_uuid st.db uid = Except.ok (some r) from ho]
    · intro n
      exact lookupChunk_eraseSession _ _ _
    · exact ⟨_, hlW, rfl⟩
    · intro h2 now2 idx chash content
      simp only [upload_chunk, hlW]
      rw [if_pos (by simp)]

theorem c8_cancel_no_status_gate_witness :
    ∃ st2 : St,
      cancel_upload "t9" c8St "w8" =
        (.ok ⟨"success", "Upload cancelled and temporary files removed"⟩, st2)
      ∧ (∀ n : Nat, lookupChunk st2.tempChunks "w8" n = none)
      ∧ (∃ m1 : Metadata, load_upload_metadata st2 "w8" = .ok m1 ∧ m1.status = "cancelled")
      ∧ ∀ (h2 : Bytes → String) (now2 : String) (idx : Int) (chash : String) (content : Bytes),
          upload_chunk h2 now2 st2 "w8" idx chash content =
            (.error ⟨400, .badState "cancelled"⟩, st2) :=
  c8_cancel_no_status_gate "t9" c8St "w8" (demoMeta "w8" "completed" 1 [0] "hA")
    (by decide) ⟨none, by decide⟩

/-- Session state for the duplicate-write evaluation: chunk zero already
present with bytes `[1, 2, 3]`. -/
def c9St : St :=
  ⟨[⟨"w9", true, some (demoMeta "w9" "uploading" 2 [0] "hABC")⟩],
   [(("w9", 0), [1, 2, 3])], [], []⟩

/-- Claim C9, counterexample: re-submitting an already-present chunk index with
bytes different from the stored ones (`[9, 9, 9]` versus `[1, 2, 3]`) is not
rejected as a conflict: `upload_chunk` returns the `exists` success response
with the state unchanged, the stored bytes still being the original ones. -/
theorem c9_counterexample_different_bytes_accepted :
    upload_chunk demoHash "t9" c9St "w9" 0 "hX" [9, 9, 9] =
      (.ok ⟨0, "exists", "Chunk already uploaded"⟩, c9St)
    ∧ lookupChunk c9St.tempChunks "w9" 0 = some [1, 2, 3] := by
  decide

/-- Claim C9 (corrected): a second `upload_chunk` for an already-present chunk
index is not rejected as a conflict. Whatever bytes and declared digest the
retry carries — identical or different — the call returns the `exists`
success response and the state is returned unchanged, so the previously
stored bytes for that key remain what they were. -/
theorem c9_duplicate_write_not_conflict (h : Bytes → String) (now : String)
    (st : St) (uid : String) (m : Metadata) (idx : Int) (chash : String)
    (content : Bytes)
    (hload : load_upload_metadata st uid = .ok m)
    (hstatus : m.status = "uploading" ∨ m.status = "paused")
    (h0 : 0 ≤ idx) (hlt : idx < m.total_chunks)
    (hmem : idx ∈ m.uploaded_chunks) :
    upload_chunk h now st uid idx chash content =
      (.ok ⟨idx, "exists", "Chunk already uploaded"⟩, st) :=
  upload_chunk_exists_branch h now st uid m idx chash content
    hload hstatus h0 hlt hmem

theorem c9_duplicate_write_not_conflict_witness :
    upload_chunk demoHash "s9" c9St "w9" 0 "other" [7, 7] =
      (.ok ⟨0, "exists", "Chunk already uploaded"⟩, c9St) :=
  c9_duplicate_write_not_conflict demoHash "s9" c9St "w9"
    (demoMeta "w9" "uploading" 2 [0] "hABC") 0 "other" [7, 7]
    (by decide) (by decide) (by decide) (by decide) (by decide)

/-- A metadata directory holding a loadable `uploading` session, an unparsable
`.json` file, a non-`.json` file, and a loadable `paused` session. -/
def c10St : St :=
  ⟨[⟨"a", true, some (demoMeta "a" "uploading" 1 [] "h1")⟩,
    ⟨"b", true, none⟩,
    ⟨"c", false, none⟩,
    ⟨"d", true, some (demoMeta "d" "paused" 2 [0] "h2")⟩], [], [], []⟩

/-- Claim C10 (confirmed): `list_uploads` is a total function of the metadata
directory — it returns a list for every directory content, never raising
(every exception of the per-entry load is swallowed by the bare `except`) —
and, for a directory without duplicate filenames, the result is exactly the
entries whose filename ends in `.json`, that load and parse successfully, and
whose status passes the optional filter (all loadable ones when the filter is
absent), each projected to its view. -/
theorem c10_list_uploads_exact (st : St) (filt : Option String)
    (hnd : ((st.metadir.filter (fun e => e.isJson)).map (fun e => e.stem)).Nodup) :
    list_uploads st filt =
      st.metadir.filterMap
        (fun e =>
          if e.isJson = true then
            match e.content with
            | some m => if statusMatches filt m.status then some (viewOf m) else none
            | none => none
          else none) := by
  have := list_uploads_fold st filt st.metadir []
    (fun e he hj => findMeta_of_nodup st.metadir hnd e he hj)
  simpa [list_uploads] using this

theorem c10_list_uploads_exact_witness :
    list_uploads c10St (some "uploading") =
      c10St.metadir.filterMap
        (fun e =>
          if e.isJson = true then
            match e.content with
            | some m => if statusMatches (some "uploading") m.status then some (viewOf m) else none
            | none => none
          else none) :=
  c10_list_uploads_exact c10St (some "uploading") (by decide)
